import Mathlib

/-!
Verification development for the `static_site_gen` content pipeline
(`static_site_gen/generator/parser.py`, `core.py`, `utils.py`).

The Python code is shallowly embedded: strings are Lean `String`
(a wrapper around `List Char`), Python `int` is `Int`/`Nat`, fallible
code returns `Except`, and the handful of runtime facilities that
depend on environment data (the Unicode character tables behind
`str.lower`/`re`'s `\w`, `unicodedata.normalize`, the per-process
salted `hash`, the IANA timezone database, `yaml.safe_load`) are
passed in as explicit parameters, so every theorem quantifies over
the possible environments.  All definitions are executable by the
kernel (structural or fuel-bounded recursion, no well-founded fix).
-/

/-! ### Python string primitives -/

/-- ASCII lowercasing of a single character, the restriction of Python's
`str.lower` to ASCII input. -/
def asciiLowerChar (c : Char) : Char :=
  if 'A' ≤ c ∧ c ≤ 'Z' then Char.ofNat (c.toNat + 32) else c

/-- ASCII lowercasing of a string (Python `str.lower` restricted to ASCII). -/
def asciiLower (s : String) : String :=
  String.mk (s.data.map asciiLowerChar)

/-- The ASCII whitespace characters: the intersection of Python's
`str.isspace` class and the regex class `\s` with the ASCII range
(space, tab, newline, carriage return, vertical tab, form feed). -/
def asciiIsSpace (c : Char) : Bool :=
  c = ' ' || c = Char.ofNat 9 || c = Char.ofNat 10 || c = Char.ofNat 13 ||
  c = Char.ofNat 11 || c = Char.ofNat 12

/-- Python's regex class `\w` restricted to ASCII: letters, digits and
underscore. -/
def asciiIsWord (c : Char) : Bool :=
  c.isAlphanum || c = '_'

/-- Drop characters satisfying `p` from both ends of a character list. -/
def stripList (p : Char → Bool) (l : List Char) : List Char :=
  ((l.dropWhile p).reverse.dropWhile p).reverse

/-- Python `str.strip()` parameterized by the whitespace predicate `p`;
`pyStrip asciiIsSpace` is `str.strip()` on ASCII input. -/
def pyStrip (p : Char → Bool) (s : String) : String :=
  String.mk (stripList p s.data)

/-- Python `str.strip(c)` for a single stripping character `c`
(used by the source as `.strip("-")` and `.strip("/")`). -/
def pyStripChar (c : Char) (s : String) : String :=
  String.mk (stripList (fun d => d = c) s.data)

/-- Does `pat` occur as a contiguous sublist of `l`?  This is Python's
`pat in s` substring test on the character level. -/
def subListOccurs (pat : List Char) : List Char → Bool
  | [] => pat.isEmpty
  | c :: cs => pat.isPrefixOf (c :: cs) || subListOccurs pat cs

/-- Python's substring containment `pat in s`. -/
def containsSub (s pat : String) : Bool :=
  subListOccurs pat.data s.data

/-- Split off the part of `l` before the first occurrence of `sep`
(scanning left to right), returning the prefix and the remainder after
the separator; `none` when `sep` does not occur.  `sep` is assumed
non-empty (the source only splits on `"---"`). -/
def splitFirstList (sep : List Char) : List Char → Option (List Char × List Char)
  | [] => none
  | c :: cs =>
      if sep.isPrefixOf (c :: cs) then
        some ([], (c :: cs).drop sep.length)
      else
        match splitFirstList sep cs with
        | some (a, b) => some (c :: a, b)
        | none => none

/-- Python `s.split(sep, 2)`: split on the first two non-overlapping
occurrences of `sep`, producing one, two or three parts. -/
def pySplit2 (sep s : String) : List String :=
  match splitFirstList sep.data s.data with
  | none => [s]
  | some (a, rest) =>
      match splitFirstList sep.data rest with
      | none => [String.mk a, String.mk rest]
      | some (b, rest2) => [String.mk a, String.mk b, String.mk rest2]

/-! ### Decimal formatting (Python `str(n)` / f-string interpolation of a
nonnegative `int`) -/

/-- The ASCII digit character for `n < 10`. -/
def decDigitChar (n : Nat) : Char :=
  Char.ofNat (48 + n)

/-- Decimal digit characters of `n`, most significant first, computed with
explicit fuel (any `fuel ≥ n` yields the standard decimal numeral). -/
def decChars : Nat → Nat → List Char
  | 0, n => [decDigitChar n]
  | fuel + 1, n =>
      if n < 10 then [decDigitChar n]
      else decChars fuel (n / 10) ++ [decDigitChar (n % 10)]

/-- Python's decimal rendering `str(n)` of a nonnegative integer. -/
def decimalRepr (n : Nat) : String :=
  String.mk (decChars n n)

/-- Decimal evaluation of a character list, the left inverse used to prove
`decimalRepr` injective. -/
def decValue (l : List Char) : Nat :=
  l.foldl (fun a c => a * 10 + (c.toNat - 48)) 0

/-! ### Slug generator (`parser.py`, `generate_slug`, lines 192-232)

The Unicode facilities the source leans on are environment data and are
passed in as a table of parameters: `nfkd` is
`unicodedata.normalize("NFKD", .)`, `lower` is `str.lower`, `isWord` is
the regex class `\w`, `isSpace` covers both `str.strip()`'s whitespace
and the regex class `\s` (the two coincide on ASCII), and `pyHash` is
the per-process salted string `hash` (`PYTHONHASHSEED` makes it differ
between runs of the program). -/

structure CharTables where
  nfkd : String → String
  lower : String → String
  isWord : Char → Bool
  isSpace : Char → Bool
  pyHash : String → Int

/-- An instantiation of the tables that agrees with CPython on ASCII
input: NFKD normalization is the identity on ASCII strings, and the
`\w`, `\s` and `lower` tables restrict to their ASCII parts.  The hash
seed function stands for one concrete run of the interpreter. -/
def asciiTables (h : String → Int) : CharTables where
  nfkd := id
  lower := asciiLower
  isWord := asciiIsWord
  isSpace := asciiIsSpace
  pyHash := h

/-- Python `normalized.encode("ascii", "ignore").decode("ascii")`:
drop every non-ASCII code point. -/
def asciiEncodeIgnore (s : String) : String :=
  String.mk (s.data.filter (fun c => c.toNat < 128))

/-- Python `re.sub(r"[^\w\s-]", "", s)`: delete every character that is
neither a word character, whitespace, nor a hyphen. -/
def removeNonWord (T : CharTables) (s : String) : String :=
  String.mk (s.data.filter (fun c => T.isWord c || T.isSpace c || c = '-'))

/-- One pass of Python `re.sub(r"[-\s]+", "-", s)`: `inRun` records
whether the scan is inside a maximal run of hyphens/whitespace, which is
replaced by a single hyphen. -/
def collapseRunsAux (T : CharTables) : Bool → List Char → List Char
  | _, [] => []
  | inRun, c :: cs =>
      if c = '-' || T.isSpace c then
        if inRun then collapseRunsAux T true cs
        else '-' :: collapseRunsAux T true cs
      else c :: collapseRunsAux T false cs

/-- Python `re.sub(r"[-\s]+", "-", s)`. -/
def collapseRuns (T : CharTables) (s : String) : String :=
  String.mk (collapseRunsAux T false s.data)

/-- The ASCII tier of `generate_slug`: NFKD-normalize, drop non-ASCII,
lowercase, delete non-word/non-space/non-hyphen characters, collapse
hyphen/whitespace runs, strip edge hyphens (source lines 208-214,
operating on the stripped title). -/
def asciiTier (T : CharTables) (title : String) : String :=
  pyStripChar '-'
    (collapseRuns T (removeNonWord T (T.lower (asciiEncodeIgnore (T.nfkd title)))))

/-- The Unicode-preserving tier of `generate_slug`: the same cleanup
without NFKD/ASCII-stripping (source lines 222-224). -/
def unicodeTier (T : CharTables) (title : String) : String :=
  pyStripChar '-' (collapseRuns T (removeNonWord T (T.lower title)))

/-- `generate_slug` (parser.py lines 192-232).  The final fallback is
`f"post-{abs(hash(title)) % 10000}"` computed from the stripped title
(the source rebinds `title = title.strip()` before hashing). -/
def generate_slug (T : CharTables) (title : String) : String :=
  if pyStrip T.isSpace title = "" then "untitled"
  else
    let t := pyStrip T.isSpace title
    let slug := asciiTier T t
    if slug ≠ "" ∧ 3 ≤ slug.length then slug
    else
      let uslug := unicodeTier T t
      if uslug ≠ "" ∧ 1 ≤ uslug.length then uslug
      else "post-" ++ decimalRepr ((T.pyHash t).natAbs % 10000)

/-! ### Date parser (`parser.py`, `parse_date`, lines 148-189)

The source function takes the date value and the file path (for error
reporting) only; it performs no timezone handling.  `PyDateTime` models
`datetime.datetime` with `tz = none` for a naive value and
`tz = some z` for a value carrying timezone information (the name of
its `tzinfo`). -/

structure PyDateTime where
  year : Nat
  month : Nat
  day : Nat
  hour : Nat
  minute : Nat
  second : Nat
  tz : Option String
deriving DecidableEq

/-- The run-time type of the `date` front-matter value as seen by
`parse_date`: a `datetime` (naive or aware), a `datetime.date`, a
string, or any other Python value. -/
inductive DateValue where
  | dt (d : PyDateTime)
  | dateOnly (year month day : Nat)
  | str (s : String)
  | other
deriving DecidableEq

inductive DateErr where
  | invalidFormat
  | badType
deriving DecidableEq

def isDecDigit (c : Char) : Bool :=
  '0' ≤ c && c ≤ '9'

def digitVal (c : Char) : Nat :=
  c.toNat - 48

/-- Match exactly four decimal digits (the regex `\d\d\d\d` behind
`strptime`'s `%Y`). -/
def take4Digits : List Char → Option (Nat × List Char)
  | a :: b :: c :: d :: rest =>
      if isDecDigit a && isDecDigit b && isDecDigit c && isDecDigit d then
        some (((digitVal a * 10 + digitVal b) * 10 + digitVal c) * 10 + digitVal d, rest)
      else none
  | _ => none

/-- Match one or two decimal digits with value in `[lo, hi]`, preferring
the two-digit reading; this reproduces the alternation order of the
`strptime` field regexes for `%m`, `%d`, `%H`, `%M`, `%S` (for these
separator-delimited formats the outcomes coincide). -/
def take12Digits (lo hi : Nat) : List Char → Option (Nat × List Char)
  | a :: b :: rest =>
      if isDecDigit a && isDecDigit b &&
          lo ≤ digitVal a * 10 + digitVal b && digitVal a * 10 + digitVal b ≤ hi then
        some (digitVal a * 10 + digitVal b, rest)
      else if isDecDigit a && lo ≤ digitVal a && digitVal a ≤ hi then
        some (digitVal a, b :: rest)
      else none
  | [a] =>
      if isDecDigit a && lo ≤ digitVal a && digitVal a ≤ hi then some (digitVal a, [])
      else none
  | [] => none

def isLeapYear (y : Nat) : Bool :=
  y % 4 = 0 && (y % 100 ≠ 0 || y % 400 = 0)

def daysInMonth (y m : Nat) : Nat :=
  if m = 2 then (if isLeapYear y then 29 else 28)
  else if m = 4 || m = 6 || m = 9 || m = 11 then 30
  else 31

/-- Match the date part `%Y-%m-%d`, with the calendar validation the
`datetime` constructor performs after `strptime`'s regex match
(`MINYEAR = 1`, day within the month). -/
def matchDatePart (l : List Char) : Option (Nat × Nat × Nat × List Char) :=
  match take4Digits l with
  | none => none
  | some (y, r1) =>
      match r1 with
      | '-' :: r2 =>
          match take12Digits 1 12 r2 with
          | none => none
          | some (mo, r3) =>
              match r3 with
              | '-' :: r4 =>
                  match take12Digits 1 31 r4 with
                  | none => none
                  | some (d, r5) =>
                      if 1 ≤ y ∧ d ≤ daysInMonth y mo then some (y, mo, d, r5)
                      else none
              | _ => none
      | _ => none

/-- `datetime.strptime(s, "%Y-%m-%d")`, requiring the whole string to be
consumed. -/
def strptimeYMD (l : List Char) : Option PyDateTime :=
  match matchDatePart l with
  | some (y, mo, d, []) => some ⟨y, mo, d, 0, 0, 0, none⟩
  | _ => none

/-- `datetime.strptime(s, "%Y-%m-%d %H:%M:%S")`. -/
def strptimeYMDHMS (l : List Char) : Option PyDateTime :=
  match matchDatePart l with
  | some (y, mo, d, ' ' :: r1) =>
      match take12Digits 0 23 r1 with
      | some (h, ':' :: r2) =>
          match take12Digits 0 59 r2 with
          | some (mi, ':' :: r3) =>
              match take12Digits 0 59 r3 with
              | some (s, []) => some ⟨y, mo, d, h, mi, s, none⟩
              | _ => none
          | _ => none
      | _ => none
  | _ => none

/-- `datetime.strptime(s, "%Y-%m-%d %H:%M")`. -/
def strptimeYMDHM (l : List Char) : Option PyDateTime :=
  match matchDatePart l with
  | some (y, mo, d, ' ' :: r1) =>
      match take12Digits 0 23 r1 with
      | some (h, ':' :: r2) =>
          match take12Digits 0 59 r2 with
          | some (mi, []) => some ⟨y, mo, d, h, mi, 0, none⟩
          | _ => none
      | _ => none
  | _ => none

/-- `parse_date` (parser.py lines 148-189): a `datetime` is returned as
is (aware or naive); a `date` becomes the naive midnight `datetime`
(`datetime.combine(date_value, datetime.min.time())`); a string is
stripped and tried against the three formats in order; anything else is
a type error.  The source's `ParseError` is the `Except.error` case. -/
def parse_date : DateValue → Except DateErr PyDateTime
  | .dt d => .ok d
  | .dateOnly y mo d => .ok ⟨y, mo, d, 0, 0, 0, none⟩
  | .str s =>
      let l := (pyStrip asciiIsSpace s).data
      match strptimeYMD l with
      | some d => .ok d
      | none =>
          match strptimeYMDHMS l with
          | some d => .ok d
          | none =>
              match strptimeYMDHM l with
              | some d => .ok d
              | none => .error .invalidFormat
  | .other => .error .badType

/-! ### HTML sanitizer (`parser.py`, `sanitize_html`, lines 235-302)

Each denylist regex is compiled with `re.IGNORECASE | re.DOTALL` and
applied by one `re.sub(pattern, "", ...)` pass.  For these patterns the
regex engine is deterministic (every quantifier's extent is forced by
the following literal), so each pattern is embedded as a matcher
`List Char → Option (List Char)` that returns the remainder after the
match when the pattern matches at the head of the list.  `re.sub`'s
scan (leftmost, non-overlapping, continuing after each match on the
original string) is `removeAllMatches`.  The character classes `\s` and
`\w` are taken at their ASCII parts, which agree with Python on the
ASCII inputs considered in the theorems below. -/

/-- Match the characters of `pat` (given lowercase) case-insensitively
at the head of `l`, returning the remainder. -/
def matchCI (pat : List Char) (l : List Char) : Option (List Char) :=
  match pat, l with
  | [], rest => some rest
  | _ :: _, [] => none
  | p :: ps, c :: cs => if asciiLowerChar c = p then matchCI ps cs else none

/-- Consume `[^>]*>`: everything up to and including the first `>`. -/
def upToGt : List Char → Option (List Char)
  | [] => none
  | c :: cs => if c = '>' then some cs else upToGt cs

/-- Match `<\s*NAME[^>]*>` at the head of the list. -/
def openTagEnd (name : List Char) : List Char → Option (List Char)
  | '<' :: r =>
      match matchCI name (r.dropWhile asciiIsSpace) with
      | some r2 => upToGt r2
      | none => none
  | _ => none

/-- Match `</NAME[^>]*>` at the head of the list. -/
def closeTagAt (name : List Char) : List Char → Option (List Char)
  | '<' :: '/' :: r =>
      match matchCI name r with
      | some r2 => upToGt r2
      | none => none
  | _ => none

/-- The lazy `.*?</NAME[^>]*>` (with `DOTALL`): scan forward for the
earliest closing tag and return the remainder after it. -/
def findCloseTag (name : List Char) : List Char → Option (List Char)
  | [] => none
  | c :: cs =>
      match closeTagAt name (c :: cs) with
      | some rest => some rest
      | none => findCloseTag name cs

/-- Match `<\s*NAME[^>]*>.*?</NAME[^>]*>` at the head of the list. -/
def pairTagMatch (name : List Char) (l : List Char) : Option (List Char) :=
  match openTagEnd name l with
  | some r => findCloseTag name r
  | none => none

def isHtmlQuote (c : Char) : Bool :=
  c = Char.ofNat 34 || c = Char.ofNat 39

/-- Consume `[^"\']*["\']`: everything up to and including the first
quote character of either kind. -/
def upToQuote : List Char → Option (List Char)
  | [] => none
  | c :: cs => if isHtmlQuote c then some cs else upToQuote cs

/-- Match the inline event-handler pattern
`on\w+\s*=\s*["\'][^"\']*["\']` at the head of the list. -/
def eventHandlerMatch (l : List Char) : Option (List Char) :=
  match matchCI ['o', 'n'] l with
  | none => none
  | some r =>
      let w := r.takeWhile asciiIsWord
      let r1 := r.dropWhile asciiIsWord
      if w.isEmpty then none
      else
        match r1.dropWhile asciiIsSpace with
        | '=' :: r3 =>
            match r3.dropWhile asciiIsSpace with
            | q :: r5 => if isHtmlQuote q then upToQuote r5 else none
            | [] => none
        | _ => none

/-- Match `javascript\s*:` at the head of the list. -/
def jsSchemeMatch (l : List Char) : Option (List Char) :=
  match matchCI "javascript".data l with
  | none => none
  | some r =>
      match r.dropWhile asciiIsSpace with
      | ':' :: r2 => some r2
      | _ => none

/-- One `re.sub(pattern, "", s)` pass: scan left to right, delete each
non-overlapping match of `m` and continue after it.  The fuel argument
(initially the list length) only bounds the recursion; every matcher in
the denylist consumes at least one character, so the guard branch that
keeps a character of a shorter-than-claimed match never fires. -/
def removeAllAux (m : List Char → Option (List Char)) : Nat → List Char → List Char
  | _, [] => []
  | 0, l => l
  | fuel + 1, c :: cs =>
      match m (c :: cs) with
      | some rest =>
          if rest.length ≤ fuel then removeAllAux m fuel rest
          else c :: removeAllAux m fuel cs
      | none => c :: removeAllAux m fuel cs

def removeAllMatches (m : List Char → Option (List Char)) (s : String) : String :=
  String.mk (removeAllAux m s.data.length s.data)

/-- The eleven denylist patterns of `sanitize_html`, in source order. -/
def dangerousMatchers : List (List Char → Option (List Char)) :=
  [pairTagMatch "script".data,
   pairTagMatch "iframe".data,
   pairTagMatch "object".data,
   pairTagMatch "embed".data,
   pairTagMatch "form".data,
   openTagEnd "input".data,
   openTagEnd "link".data,
   openTagEnd "meta".data,
   pairTagMatch "style".data,
   eventHandlerMatch,
   jsSchemeMatch]

/-- `sanitize_html` (parser.py lines 235-302): apply one removal pass
per dangerous pattern, in order.  (The `allowed_tags` set in the source
is dead code: it is never consulted.) -/
def sanitize_html (s : String) : String :=
  dangerousMatchers.foldl (fun acc m => removeAllMatches m acc) s

/-- Does matcher `m` match anywhere in `l`? -/
def hasMatch (m : List Char → Option (List Char)) : List Char → Bool
  | [] => false
  | c :: cs => (m (c :: cs)).isSome || hasMatch m cs

/-- No dangerous pattern matches anywhere in `s`. -/
def noDangerousMatch (s : String) : Bool :=
  dangerousMatchers.all (fun m => !hasMatch m s.data)

/-! ### Front-matter extractor (`parser.py`, `extract_front_matter`,
lines 70-118)

`yaml.safe_load` is external and is passed in as a parameter
`p : String → Option (Option α)`: `none` models a `yaml.YAMLError`,
`some none` models a `None` result (for which the source substitutes
the empty dict), and `some (some fm)` a parsed mapping.  The source's
outer `try` re-raises `ParseError` unchanged and no other exception can
escape the `split`, so it adds nothing to the model; the two `pass`
branches at lines 97-102 are no-ops. -/

inductive FMErr where
  | missingStart
  | missingClose
  | invalidYaml
deriving DecidableEq

/-- Python `s.startswith(pre)`. -/
def pyStartsWith (pre s : String) : Bool :=
  pre.data.isPrefixOf s.data

/-- `extract_front_matter` (parser.py lines 70-118): require the `---`
prefix, split on the first two occurrences of `---`, YAML-parse the
stripped middle part (a `None` result becomes the empty mapping,
here `fm : Option α` with `none` standing for the empty dict), and
return the stripped remainder as the body. -/
def extract_front_matter {α : Type} (p : String → Option (Option α))
    (content : String) : Except FMErr (Option α × String) :=
  if pyStartsWith "---" content then
    match pySplit2 "---" content with
    | [_, fmRaw, body] =>
        match p (pyStrip asciiIsSpace fmRaw) with
        | none => .error .invalidYaml
        | some fm => .ok (fm, pyStrip asciiIsSpace body)
    | _ => .error .missingClose
  else .error .missingStart

/-! ### Output path resolver (`utils.py`, `get_output_path`,
lines 88-140)

Filesystem paths are segment lists; `base` is the already-canonical
absolute output directory.  `urllib.parse.unquote` decodes `%XX` byte
escapes (invalid escapes are left verbatim); the byte-per-character
model below agrees with Python wherever the result feeds the ASCII
`".."` substring test.  `Path.resolve()` is the identity in this model:
the base is canonical, the joined segments contain no `..` (already
rejected) and the lexical model has no symlinks. -/

inductive PathErr where
  | traversal
  | badSeparator
deriving DecidableEq

def hexDigitVal (c : Char) : Option Nat :=
  if '0' ≤ c ∧ c ≤ '9' then some (c.toNat - 48)
  else if 'a' ≤ c ∧ c ≤ 'f' then some (c.toNat - 87)
  else if 'A' ≤ c ∧ c ≤ 'F' then some (c.toNat - 55)
  else none

def unquoteAux : List Char → List Char
  | [] => []
  | '%' :: a :: b :: rest =>
      match hexDigitVal a, hexDigitVal b with
      | some x, some y => Char.ofNat (16 * x + y) :: unquoteAux rest
      | _, _ => '%' :: unquoteAux (a :: b :: rest)
  | c :: cs => c :: unquoteAux cs

/-- Python `urllib.parse.unquote` at the byte level. -/
def pyUnquote (s : String) : String :=
  String.mk (unquoteAux s.data)

/-- Rendering of an absolute POSIX path from its segments, as
`str(Path(...))` produces it. -/
def pathStr (segs : List String) : String :=
  "/" ++ String.intercalate "/" segs

/-- Split a character list on `/` (the splitter underlying `pathlib`'s
parsing of a relative path string); `acc` holds the current segment in
reverse. -/
def splitOnSlash : List Char → List Char → List (List Char)
  | acc, [] => [acc.reverse]
  | acc, c :: cs =>
      if c = '/' then acc.reverse :: splitOnSlash [] cs
      else splitOnSlash (c :: acc) cs

/-- `pathlib`'s parsing of a relative path string: split on `/`,
collapsing spurious slashes and single-dot segments. -/
def urlPathSegs (rel : String) : List String :=
  ((splitOnSlash [] rel.data).map String.mk).filter (fun seg => seg != "" && seg != ".")

/-- `get_output_path` (utils.py lines 88-140): reject `..` in the raw or
percent-decoded path, reject backslashes, strip surrounding slashes,
then join the remaining path under `base` with `index.html` appended
and check the rendered result is prefixed by the rendered base
(the source's `resolve()`/`startswith` containment test). -/
def get_output_path (base : List String) (url_path : String) :
    Except PathErr (List String) :=
  let decoded := pyUnquote url_path
  if containsSub url_path ".." || containsSub decoded ".." then .error .traversal
  else
    let rel := pyStripChar '/' url_path
    if containsSub rel "\\" then .error .badSeparator
    else if rel = "" then .ok (base ++ ["index.html"])
    else
      let out := base ++ urlPathSegs rel ++ ["index.html"]
      if pyStartsWith (pathStr base) (pathStr out) then .ok out
      else .error .traversal

/-! ### Site configuration loader (`core.py`, `SiteConfig.from_yaml`,
lines 58-129)

`Yv` models the Python values `yaml.safe_load` can produce for the
config mapping.  The loader's input is `none` when the config file is
absent (`FileNotFoundError`) and `some raw` for the parsed structure
(`Yv.null` for an empty file).  The timezone database is the parameter
`tzdb` (`ZoneInfo(z)` succeeds exactly when `tzdb z`); `ZoneInfo`
applied to a non-string raises `TypeError`, which the source does not
catch, modelled by the `pyTypeError` case — as are Python's `in` and
`[]` operators applied to non-mapping structures. -/

inductive Yv where
  | str (s : String)
  | int (n : Int)
  | bool (b : Bool)
  | float
  | null
  | list (l : List Yv)
  | map (m : List (String × Yv))

inductive ConfigErr where
  | notFound
  | emptyConfig
  | missingRequired (fields : List String)
  | invalidRequired (fields : List String)
  | badPostsPerPage
  | badBaseUrl
  | badTimezone
  | pyTypeError
deriving DecidableEq

structure SiteConfig where
  site_name : String
  base_url : String
  author : String
  timezone : String
  output_dir : Yv
  posts_per_page : Int
  description : Yv
  keywords : Yv
  markdown_extensions : Yv

def lookupYv (m : List (String × Yv)) (k : String) : Option Yv :=
  (m.find? (fun e => e.1 == k)).map (fun e => e.2)

def hasKey (m : List (String × Yv)) (k : String) : Bool :=
  (lookupYv m k).isSome

/-- Python `raw.get(k, d)`. -/
def getYvD (m : List (String × Yv)) (k : String) (d : Yv) : Yv :=
  (lookupYv m k).getD d

def requiredFields : List String :=
  ["site_name", "base_url", "author"]

/-- The required fields absent from the mapping, in declaration order
(`missing` in the source). -/
def missingOf (m : List (String × Yv)) : List String :=
  requiredFields.filter (fun f => !hasKey m f)

/-- The required fields present but null, blank after trimming, or not
a string, in declaration order (`invalid` in the source; the error
message per field is elided, only the field name is kept). -/
def invalidOf (m : List (String × Yv)) : List String :=
  requiredFields.filter (fun f =>
    match getYvD m f .null with
    | .null => true
    | .str s => pyStrip asciiIsSpace s == ""
    | _ => true)

/-- `isinstance(v, int) and v > 0` under Python semantics, where `bool`
is a subclass of `int` (`True == 1`, `False == 0`); returns the
accepted page size. -/
def posPageSize : Yv → Option Int
  | .int n => if n ≤ 0 then none else some n
  | .bool b => if b then some 1 else none
  | _ => none

def isSchemeChar (c : Char) : Bool :=
  c.isAlphanum || c = '+' || c = '-' || c = '.'

/-- `urllib.parse.urlparse` scheme extraction: split at the first `:`
when the prefix is a nonempty run of scheme characters starting with a
letter; the scheme is lowercased. -/
def schemeSplit (s : String) : String × String :=
  match splitFirstList [':'] s.data with
  | some (pre, rest) =>
      match pre with
      | [] => ("", s)
      | c :: cs =>
          if c.isAlpha && cs.all isSchemeChar then (asciiLower (String.mk pre), String.mk rest)
          else ("", s)
  | none => ("", s)

/-- `urllib.parse.urlparse` netloc extraction from the part after the
scheme: present only after `//`, delimited by `/`, `?` or `#`. -/
def netlocOf (rest : String) : String :=
  if pyStartsWith "//" rest then
    String.mk ((rest.data.drop 2).takeWhile (fun c => c ≠ '/' && c ≠ '?' && c ≠ '#'))
  else ""

/-- The source's base-URL validation:
`parsed_url.scheme in {"http", "https"} and parsed_url.netloc`. -/
def urlOk (s : String) : Bool :=
  let p := schemeSplit s
  (p.1 == "http" || p.1 == "https") && netlocOf p.2 != ""

def strOf : Yv → String
  | .str s => s
  | _ => ""

/-- Python `f in raw` for a string `raw` (substring test). -/
def pyInStr (f s : String) : Bool :=
  containsSub s f

/-- Python `f in raw` for a list `raw` (element equality; a string
equals no non-string). -/
def pyInList (f : String) (l : List Yv) : Bool :=
  l.any (fun v => match v with | .str t => t == f | _ => false)

/-- `SiteConfig.from_yaml` (core.py lines 58-129). -/
def SiteConfig.from_yaml (tzdb : String → Bool) (input : Option Yv) :
    Except ConfigErr SiteConfig :=
  match input with
  | none => .error .notFound
  | some raw =>
    match raw with
    | .null => .error .emptyConfig
    | .map m =>
        if missingOf m ≠ [] then .error (.missingRequired (missingOf m))
        else if invalidOf m ≠ [] then .error (.invalidRequired (invalidOf m))
        else
          match posPageSize (getYvD m "posts_per_page" (.int 10)) with
          | none => .error .badPostsPerPage
          | some ppp =>
              let burl := strOf (getYvD m "base_url" .null)
              if !urlOk burl then .error .badBaseUrl
              else
                match getYvD m "timezone" (.str "UTC") with
                | .str z =>
                    if tzdb z then
                      .ok { site_name := strOf (getYvD m "site_name" .null)
                            base_url := burl
                            author := strOf (getYvD m "author" .null)
                            timezone := z
                            output_dir := getYvD m "output_dir" (.str "site")
                            posts_per_page := ppp
                            description := getYvD m "description" (.str "")
                            keywords := getYvD m "keywords" (.list [])
                            markdown_extensions :=
                              getYvD m "markdown_extensions"
                                (.list [.str "codehilite", .str "tables", .str "toc"]) }
                    else .error .badTimezone
                | _ => .error .pyTypeError
    | .str s =>
        let missing := requiredFields.filter (fun f => !pyInStr f s)
        if missing ≠ [] then .error (.missingRequired missing)
        else .error .pyTypeError
    | .list l =>
        let missing := requiredFields.filter (fun f => !pyInList f l)
        if missing ≠ [] then .error (.missingRequired missing)
        else .error .pyTypeError
    | _ => .error .pyTypeError

/-! ### Slug collision resolution (`core.py`,
`SiteGenerator._resolve_slug_collision` lines 173-191 and
`SiteGenerator._process_content_files` lines 226-270)

`ContentMetadata` is the dataclass from parser.py lines 41-57; its
`__post_init__` hook normalizes the tag list, and `dataclasses.replace`
re-runs that hook, which `replaceMetadata` reproduces.  The `while`
loop of `_resolve_slug_collision` is embedded with explicit fuel
`used.length + 1`; the probe below is proved to find an unused
candidate within that many steps, so the fuel-exhausted branch (which
has no source counterpart) is unreachable. -/

structure ContentMetadata where
  title : String
  date : PyDateTime
  slug : String
  tags : List String
  draft : Bool
  description : Option String
deriving DecidableEq

/-- The `__post_init__` tag normalization (parser.py lines 52-57):
keep the tags that are nonempty after stripping, lowercased and
stripped. -/
def normalizeTags (tags : List String) : List String :=
  (tags.filter (fun t => pyStrip asciiIsSpace t != "")).map
    (fun t => pyStrip asciiIsSpace (asciiLower t))

/-- `dataclasses.replace(metadata, slug=slug')`: rebuild the record with
the new slug, re-running `__post_init__` on the (already normalized)
tag list. -/
def replaceMetadata (m : ContentMetadata) (slug' : String) : ContentMetadata :=
  { m with slug := slug', tags := normalizeTags m.tags }

/-- The candidate `f"{slug}-{counter}"`. -/
def slugCandidate (slug : String) (counter : Nat) : String :=
  slug ++ "-" ++ decimalRepr counter

/-- The `while True` probe of `_resolve_slug_collision`, starting at
`counter`, with explicit fuel. -/
def probeSlug (slug : String) (used : List String) : Nat → Nat → String
  | counter, 0 => slugCandidate slug counter
  | counter, fuel + 1 =>
      if slugCandidate slug counter ∈ used then probeSlug slug used (counter + 1) fuel
      else slugCandidate slug counter

/-- `_resolve_slug_collision` (core.py lines 173-191). -/
def resolve_slug_collision (slug : String) (used : List String) : String :=
  if slug ∈ used then probeSlug slug used 2 (used.length + 1) else slug

/-- The body of one iteration of `_process_content_files` (core.py
lines 251-262): resolve the slug against the used set and replace the
metadata's slug only when it changed. -/
def slugStep (m : ContentMetadata) (used : List String) : ContentMetadata :=
  let fin := resolve_slug_collision m.slug used
  if fin ≠ m.slug then replaceMetadata m fin else m

/-- The per-file loop of `_process_content_files` (core.py lines
247-268) on already parsed items: resolve the slug against the used
set, replace the metadata's slug only when it changed, and record the
final slug as used.  (Files that fail to parse are skipped by the
source before this point and do not appear in the input list.) -/
def processContentLoop : List ContentMetadata → List String → List ContentMetadata
  | [], _ => []
  | m :: rest, used =>
      slugStep m used :: processContentLoop rest (resolve_slug_collision m.slug used :: used)

/-- `_process_content_files` applied to one content class (posts or
pages), starting from the empty used-slug set. -/
def process_content_files (items : List ContentMetadata) : List ContentMetadata :=
  processContentLoop items []

/-- Two parsed items whose titles produce the same slug, used to
exercise the collision policy on a concrete input. -/
def collisionDemoItems : List ContentMetadata :=
  [{ title := "First", date := ⟨2025, 1, 1, 0, 0, 0, none⟩, slug := "test-post",
     tags := [], draft := false, description := none },
   { title := "Second", date := ⟨2025, 1, 2, 0, 0, 0, none⟩, slug := "test-post",
     tags := ["tag"], draft := true, description := some "d" }]

/-! ### Pagination (`utils.py`, `paginate_posts`, lines 239-299) -/

structure PageInfo (α : Type) where
  posts : List α
  page_number : Nat
  total_pages : Nat
  has_previous : Bool
  has_next : Bool
  previous_url : Option String
  next_url : Option String
deriving DecidableEq

/-- `paginate_posts` (utils.py lines 239-299).  `posts_per_page` is a
Python `int`, hence `Int`; the page loop `range(1, total_pages + 1)` is
embedded as a map over `List.range total_pages` with `page_num =
idx + 1`. -/
def paginate_posts {α : Type} (posts : List α) (posts_per_page : Int) :
    Except String (List (PageInfo α)) :=
  if posts_per_page ≤ 0 then .error "posts_per_page must be positive"
  else
    match posts with
    | [] =>
        .ok [{ posts := []
               page_number := 1
               total_pages := 1
               has_previous := false
               has_next := false
               previous_url := none
               next_url := none }]
    | _ =>
        let n := posts.length
        let k := posts_per_page.toNat
        let total := (n + k - 1) / k
        .ok ((List.range total).map (fun idx =>
          let pageNum := idx + 1
          { posts := (posts.drop (idx * k)).take k
            page_number := pageNum
            total_pages := total
            has_previous := decide (1 < pageNum)
            has_next := decide (pageNum < total)
            previous_url :=
              if 1 < pageNum then
                some (if pageNum = 2 then "/" else "/page/" ++ decimalRepr (pageNum - 1) ++ "/")
              else none
            next_url :=
              if pageNum < total then some ("/page/" ++ decimalRepr (pageNum + 1) ++ "/")
              else none }))

/-! ### Lemmas: decimal representation -/

theorem decValue_append_digit (l : List Char) (c : Char) :
    decValue (l ++ [c]) = decValue l * 10 + (c.toNat - 48) := by
  simp [decValue, List.foldl_append]

theorem digitVal_decDigitChar (n : Nat) (h : n < 10) :
    (decDigitChar n).toNat - 48 = n := by
  interval_cases n <;> decide

theorem decChars_roundtrip : ∀ fuel n, n ≤ fuel →
    decValue (decChars fuel n) = n ∧ decChars fuel n ≠ [] := by
  intro fuel
  induction fuel with
  | zero =>
      intro n hn
      have : n = 0 := Nat.le_zero.mp hn
      subst this
      refine ⟨?_, by simp [decChars]⟩
      simp [decChars, decValue, digitVal_decDigitChar 0 (by omega)]
  | succ f ih =>
      intro n hn
      by_cases h10 : n < 10
      · refine ⟨?_, by simp [decChars, h10]⟩
        simp [decChars, h10, decValue]
        exact digitVal_decDigitChar n h10
      · have hpos : 0 < n := by omega
        have hdiv : n / 10 < n := Nat.div_lt_self hpos (by omega)
        have hle : n / 10 ≤ f := by omega
        have := ih (n / 10) hle
        refine ⟨?_, by simp [decChars, h10]⟩
        rw [decChars]
        simp only [h10, if_false]
        rw [decValue_append_digit, this.1, digitVal_decDigitChar (n % 10) (Nat.mod_lt n (by omega))]
        omega

theorem decimalRepr_injective : Function.Injective decimalRepr := by
  intro a b h
  have hdata : decChars a a = decChars b b := by
    simpa [decimalRepr] using congrArg String.data h
  have ha := (decChars_roundtrip a a le_rfl).1
  have hb := (decChars_roundtrip b b le_rfl).1
  rw [← ha, ← hb, hdata]

theorem slugCandidate_injective (slug : String) :
    Function.Injective (slugCandidate slug) := by
  intro a b h
  apply decimalRepr_injective
  have h1 : (slug ++ "-").data ++ (decimalRepr a).data =
      (slug ++ "-").data ++ (decimalRepr b).data := congrArg String.data h
  have hd := List.append_cancel_left h1
  calc decimalRepr a = String.mk (decimalRepr a).data := rfl
    _ = String.mk (decimalRepr b).data := by rw [hd]
    _ = decimalRepr b := rfl

theorem slugCandidate_ne_slug (slug : String) (n : Nat) :
    slugCandidate slug n ≠ slug := by
  intro h
  have h1 : (slugCandidate slug n).data.length = slug.data.length := by rw [h]
  have h2 : (slugCandidate slug n).data.length =
      slug.data.length + 1 + (decimalRepr n).data.length := by
    have e : (slugCandidate slug n).data =
        (slug.data ++ [ '-' ]) ++ (decimalRepr n).data := rfl
    rw [e, List.length_append, List.length_append, List.length_singleton]
  omega

/-! ### Lemmas: slug collision probing -/

theorem exists_free_candidate (slug : String) (used : List String) (start : Nat) :
    ∃ j, j ≤ used.length ∧ slugCandidate slug (start + j) ∉ used := by
  by_contra hcon
  push_neg at hcon
  have hinj : Function.Injective (fun j : ℕ => slugCandidate slug (start + j)) := by
    intro a b h
    have := slugCandidate_injective slug h
    omega
  have hsub : (Finset.range (used.length + 1)).image
      (fun j => slugCandidate slug (start + j)) ⊆ used.toFinset := by
    intro x hx
    rcases Finset.mem_image.mp hx with ⟨j, hj, rfl⟩
    exact List.mem_toFinset.mpr (hcon j (by simpa using Nat.lt_succ_iff.mp (Finset.mem_range.mp hj)))
  have hcard := Finset.card_le_card hsub
  rw [Finset.card_image_of_injective _ hinj, Finset.card_range] at hcard
  have := used.toFinset_card_le
  omega

theorem probeSlug_spec (slug : String) (used : List String) :
    ∀ fuel start, (∃ j, j ≤ fuel ∧ slugCandidate slug (start + j) ∉ used) →
      ∃ j, j ≤ fuel ∧ probeSlug slug used start (fuel + 1) = slugCandidate slug (start + j) ∧
        slugCandidate slug (start + j) ∉ used ∧
        ∀ i, i < j → slugCandidate slug (start + i) ∈ used := by
  intro fuel
  induction fuel with
  | zero =>
      intro start h
      rcases h with ⟨j, hj, hfree⟩
      have : j = 0 := Nat.le_zero.mp hj
      subst this
      refine ⟨0, le_rfl, ?_, hfree, by omega⟩
      simp only [probeSlug]
      rw [if_neg (by simpa using hfree), Nat.add_zero]
  | succ f ih =>
      intro start h
      by_cases hmem : slugCandidate slug start ∈ used
      · rcases h with ⟨j, hj, hfree⟩
        have hj0 : j ≠ 0 := by
          intro h0; subst h0; simp at hfree; exact hfree hmem
        have hex : ∃ j', j' ≤ f ∧ slugCandidate slug (start + 1 + j') ∉ used := by
          refine ⟨j - 1, by omega, ?_⟩
          have : start + 1 + (j - 1) = start + j := by omega
          rw [this]; exact hfree
        rcases ih (start + 1) hex with ⟨j', hj', heq, hfree', hmin'⟩
        refine ⟨j' + 1, by omega, ?_, ?_, ?_⟩
        · show probeSlug slug used start (f + 1 + 1) = _
          simp only [probeSlug]
          rw [if_pos hmem]
          have : start + 1 + j' = start + (j' + 1) := by omega
          rw [← this]; exact heq
        · have : start + (j' + 1) = start + 1 + j' := by omega
          rw [this]; exact hfree'
        · intro i hi
          rcases Nat.eq_zero_or_pos i with h0 | hpos
          · subst h0; simpa using hmem
          · have : start + i = start + 1 + (i - 1) := by omega
            rw [this]
            exact hmin' (i - 1) (by omega)
      · refine ⟨0, by omega, ?_, by simpa using hmem, by omega⟩
        simp only [probeSlug]
        rw [if_neg (by simpa using hmem), Nat.add_zero]

theorem resolve_slug_collision_spec (slug : String) (used : List String) :
    (slug ∉ used → resolve_slug_collision slug used = slug) ∧
    (slug ∈ used → ∃ N, 2 ≤ N ∧
      resolve_slug_collision slug used = slugCandidate slug N ∧
      slugCandidate slug N ∉ used ∧
      ∀ k, 2 ≤ k → k < N → slugCandidate slug k ∈ used) := by
  constructor
  · intro h
    simp only [resolve_slug_collision]
    rw [if_neg h]
  · intro h
    have hex : ∃ j, j ≤ used.length ∧ slugCandidate slug (2 + j) ∉ used :=
      exists_free_candidate slug used 2
    rcases probeSlug_spec slug used used.length 2 hex with ⟨j, hj, heq, hfree, hmin⟩
    refine ⟨2 + j, by omega, ?_, hfree, ?_⟩
    · simp only [resolve_slug_collision]
      rw [if_pos h]
      exact heq
    · intro k hk2 hkN
      have : k = 2 + (k - 2) := by omega
      rw [this]
      exact hmin (k - 2) (by omega)

theorem slugStep_slug (m : ContentMetadata) (used : List String) :
    (slugStep m used).slug = resolve_slug_collision m.slug used := by
  simp only [slugStep]
  split
  · rfl
  · next hne => exact (not_ne_iff.mp hne).symm

theorem processContentLoop_length (items : List ContentMetadata) :
    ∀ used, (processContentLoop items used).length = items.length := by
  induction items with
  | nil => intro used; rfl
  | cons m rest ih => intro used; simp [processContentLoop, ih]

theorem processContentLoop_get :
    ∀ (i : Nat) (items : List ContentMetadata) (used : List String)
      (h : i < items.length)
      (h2 : i < (processContentLoop items used).length),
      (processContentLoop items used).get ⟨i, h2⟩ =
        slugStep (items.get ⟨i, h⟩)
          ((((processContentLoop items used).take i).map (fun m => m.slug)).reverse ++ used) := by
  intro i
  induction i with
  | zero =>
      intro items used h h2
      match items with
      | m :: rest => rfl
  | succ i ih =>
      intro items used h h2
      match items with
      | m :: rest =>
          have h' : i < rest.length := by simpa using h
          have h2' : i < (processContentLoop rest (resolve_slug_collision m.slug used :: used)).length := by
            simpa [processContentLoop] using h2
          have := ih rest (resolve_slug_collision m.slug used :: used) h' h2'
          simp only [processContentLoop, List.get_cons_succ, List.take_succ_cons,
            List.map_cons, List.reverse_cons] at *
          rw [this, slugStep_slug]
          simp [List.append_assoc]

/-- C4: within one content class, for every sequence of parsed files
processed in order, the first file producing a given slug keeps it;
every subsequent file producing an already-used slug is assigned
`<slug>-N` for the first integer `N ≥ 2` not yet used; and when a
collision is resolved only the slug field of that item's metadata is
replaced — title, date, tags, draft and description are preserved
exactly as parsed.  (Parsed items have `__post_init__`-normalized tag
lists, the `htags` hypothesis; `dataclasses.replace` re-runs the
normalization, which is then the identity.) -/
theorem c4_slug_collision_frame (items : List ContentMetadata)
    (htags : ∀ m ∈ items, normalizeTags m.tags = m.tags)
    (i : Nat) (h : i < items.length)
    (h2 : i < (process_content_files items).length) :
    (process_content_files items).length = items.length ∧
    ((items.get ⟨i, h⟩).slug ∉
        (((process_content_files items).take i).map (fun m => m.slug)) →
      (process_content_files items).get ⟨i, h2⟩ = items.get ⟨i, h⟩) ∧
    ((items.get ⟨i, h⟩).slug ∈
        (((process_content_files items).take i).map (fun m => m.slug)) →
      ∃ N, 2 ≤ N ∧
        ((process_content_files items).get ⟨i, h2⟩).slug =
          slugCandidate (items.get ⟨i, h⟩).slug N ∧
        ((process_content_files items).get ⟨i, h2⟩).slug ∉
          (((process_content_files items).take i).map (fun m => m.slug)) ∧
        (∀ k, 2 ≤ k → k < N →
          slugCandidate (items.get ⟨i, h⟩).slug k ∈
            (((process_content_files items).take i).map (fun m => m.slug))) ∧
        ((process_content_files items).get ⟨i, h2⟩).title = (items.get ⟨i, h⟩).title ∧
        ((process_content_files items).get ⟨i, h2⟩).date = (items.get ⟨i, h⟩).date ∧
        ((process_content_files items).get ⟨i, h2⟩).tags = (items.get ⟨i, h⟩).tags ∧
        ((process_content_files items).get ⟨i, h2⟩).draft = (items.get ⟨i, h⟩).draft ∧
        ((process_content_files items).get ⟨i, h2⟩).description =
          (items.get ⟨i, h⟩).description) := by
  have hget := processContentLoop_get i items [] h h2
  refine ⟨processContentLoop_length items [], ?_, ?_⟩
  · intro hnot
    have hnot' : (items.get ⟨i, h⟩).slug ∉
        ((((processContentLoop items []).take i).map (fun m => m.slug)).reverse ++
          ([] : List String)) := by
      simpa using hnot
    have hr := (resolve_slug_collision_spec (items.get ⟨i, h⟩).slug _).1 hnot'
    show (processContentLoop items []).get ⟨i, h2⟩ = items.get ⟨i, h⟩
    rw [hget]
    simp only [slugStep]
    rw [hr, if_neg (fun hc => hc rfl)]
  · intro hmem
    have hmem' : (items.get ⟨i, h⟩).slug ∈
        ((((processContentLoop items []).take i).map (fun m => m.slug)).reverse ++
          ([] : List String)) := by
      simpa using hmem
    obtain ⟨N, hN2, hres, hfree, hmin⟩ :=
      (resolve_slug_collision_spec (items.get ⟨i, h⟩).slug _).2 hmem'
    have hstep : (process_content_files items).get ⟨i, h2⟩ =
        replaceMetadata (items.get ⟨i, h⟩) (slugCandidate (items.get ⟨i, h⟩).slug N) := by
      show (processContentLoop items []).get ⟨i, h2⟩ = _
      rw [hget]
      simp only [slugStep]
      rw [hres, if_pos (slugCandidate_ne_slug _ _)]
    refine ⟨N, hN2, ?_, ?_, ?_, ?_, ?_, ?_, ?_, ?_⟩
    · rw [hstep]; rfl
    · rw [hstep]
      show slugCandidate (items.get ⟨i, h⟩).slug N ∉ _
      intro hc
      exact hfree (by simpa using hc)
    · intro k hk2 hkN
      have := hmin k hk2 hkN
      simpa using this
    · rw [hstep]; rfl
    · rw [hstep]; rfl
    · rw [hstep]
      exact htags (items.get ⟨i, h⟩) (items.get_mem i h)
    · rw [hstep]; rfl
    · rw [hstep]; rfl

/-- Witness for C4: on two items that both produce slug `test-post`,
the second is assigned a numbered candidate. -/
theorem c4_slug_collision_frame_witness :
    (∀ m ∈ collisionDemoItems, normalizeTags m.tags = m.tags) ∧
    1 < collisionDemoItems.length ∧
    ∃ N, 2 ≤ N ∧
      ((process_content_files collisionDemoItems).get ⟨1, by decide⟩).slug =
        slugCandidate (collisionDemoItems.get ⟨1, by decide⟩).slug N :=
  ⟨by decide, by decide, by
    obtain ⟨_, _, hB⟩ :=
      c4_slug_collision_frame collisionDemoItems (by decide) 1 (by decide) (by decide)
    obtain ⟨N, hN, hslug, _⟩ := hB (by decide)
    exact ⟨N, hN, hslug⟩⟩

/-- C1: the claim asserts the fallback slug for a symbols-only title is
`post-` followed by the first 8 hex characters of a cryptographic
digest of the UTF-8 title, identical across runs of the program.  The
source instead computes `post-` followed by the decimal value of
`abs(hash(title)) % 10000`, where `hash` is the per-process salted
string hash: two runs with different hash seed functions produce
different slugs for the same symbols-only title, and the suffix is at
most four decimal digits, never 8 hex characters. -/
theorem c1_hash_fallback_run_dependent :
    generate_slug (asciiTables (fun _ => 0)) "!@#$%^&*()" = "post-0" ∧
    generate_slug (asciiTables (fun _ => 1)) "!@#$%^&*()" = "post-1" ∧
    ("post-0" : String) ≠ "post-1" ∧
    (decimalRepr (((0 : Int)).natAbs % 10000)).length ≠ 8 := by
  refine ⟨by decide, by decide, by decide, by decide⟩

/-- C2: the claim asserts `get_output_path` rejects any segment that is
empty after trimming, is exactly `.`, or differs from its own trimmed
form.  The source has no segment validation: `/ foo /` is accepted and
mapped to `base/ foo /index.html` (and `/./` and `/a//b/` are silently
collapsed by path joining), while the `..`, percent-encoded `..` and
backslash rejections, and the two positive examples, do hold. -/
theorem c2_no_segment_validation :
    get_output_path ["site"] "/" = .ok ["site", "index.html"] ∧
    get_output_path ["site"] "/posts/x/" = .ok ["site", "posts", "x", "index.html"] ∧
    get_output_path ["site"] "/posts/../../etc/" = .error .traversal ∧
    get_output_path ["site"] "/%2E%2E/x/" = .error .traversal ∧
    get_output_path ["site"] "/a\\b/" = .error .badSeparator ∧
    get_output_path ["site"] "/ foo /" = .ok ["site", " foo ", "index.html"] ∧
    get_output_path ["site"] "/./" = .ok ["site", "index.html"] ∧
    get_output_path ["site"] "/a//b/" = .ok ["site", "a", "b", "index.html"] := by
  refine ⟨rfl, rfl, rfl, rfl, rfl, rfl, rfl, rfl⟩

/-- C3: the claim asserts `parse_date` attaches the resolved timezone
to naive inputs, returning a timezone-aware timestamp.  The source
`parse_date` accepts no timezone argument at all and returns naive
results (`tz = none`) for a `date` input and for every accepted string
format (an aware `datetime` input is indeed returned unchanged). -/
theorem c3_parse_date_returns_naive :
    parse_date (.dateOnly 2025 10 30) = .ok ⟨2025, 10, 30, 0, 0, 0, none⟩ ∧
    parse_date (.str "2025-10-17") = .ok ⟨2025, 10, 17, 0, 0, 0, none⟩ ∧
    parse_date (.str "2025-10-17 14:30:00") = .ok ⟨2025, 10, 17, 14, 30, 0, none⟩ ∧
    parse_date (.dt ⟨2025, 10, 30, 12, 0, 0, some "Asia/Tokyo"⟩) =
      .ok ⟨2025, 10, 30, 12, 0, 0, some "Asia/Tokyo"⟩ := by
  refine ⟨rfl, rfl, rfl, rfl⟩

/-! ### Lemmas: sanitizer -/

theorem removeAllAux_of_no_match (m : List Char → Option (List Char)) :
    ∀ fuel l, hasMatch m l = false → removeAllAux m fuel l = l := by
  intro fuel
  induction fuel with
  | zero =>
      intro l _
      match l with
      | [] => rfl
      | c :: cs => rfl
  | succ f ih =>
      intro l hl
      match l with
      | [] => rfl
      | c :: cs =>
          have hnone : m (c :: cs) = none := by
            simp only [hasMatch, Bool.or_eq_false_iff] at hl
            exact Option.not_isSome_iff_eq_none.mp (by simp [hl.1])
          have htail : hasMatch m cs = false := by
            simp only [hasMatch, Bool.or_eq_false_iff] at hl
            exact hl.2
          simp only [removeAllAux, hnone]
          rw [ih cs htail]

theorem removeAllMatches_of_no_match (m : List Char → Option (List Char))
    (s : String) (h : hasMatch m s.data = false) :
    removeAllMatches m s = s := by
  simp only [removeAllMatches]
  rw [removeAllAux_of_no_match m _ _ h]

/-- C5 (amended): `sanitize_html` is a total function on strings; each
dangerous construct (`<script>`/`<iframe>`/`<object>`/`<embed>`/
`<form>`/`<input>`/`<link>`/`<meta>`/`<style>` elements, inline
`on*="..."` handlers, `javascript:` schemes) is removed by one
case-insensitive pass per pattern, so an input containing none of the
patterns is returned unchanged and plain occurrences are removed; but
because each pass runs only once, text spliced together by the
removals themselves can survive, so the output is not guaranteed free
of the listed constructs. -/
theorem c5_sanitize_single_pass (s : String) (h : noDangerousMatch s = true) :
    sanitize_html s = s ∧
    sanitize_html "<p>a</p><script>x=1;</script><p>b</p>" = "<p>a</p><p>b</p>" ∧
    sanitize_html "<div onclick=\"evil()\">hi</div>" = "<div >hi</div>" ∧
    sanitize_html "<a href=\"javascript:alert(1)\">go</a>" = "<a href=\"alert(1)\">go</a>" := by
  refine ⟨?_, by decide, by decide, by decide⟩
  simp only [noDangerousMatch, dangerousMatchers, List.all_cons, List.all_nil,
    Bool.and_eq_true, Bool.not_eq_eq_eq_not, Bool.not_true] at h
  obtain ⟨h1, h2, h3, h4, h5, h6, h7, h8, h9, h10, h11, -⟩ := h
  simp only [sanitize_html, dangerousMatchers, List.foldl_cons, List.foldl_nil]
  rw [removeAllMatches_of_no_match _ _ h1, removeAllMatches_of_no_match _ _ h2,
    removeAllMatches_of_no_match _ _ h3, removeAllMatches_of_no_match _ _ h4,
    removeAllMatches_of_no_match _ _ h5, removeAllMatches_of_no_match _ _ h6,
    removeAllMatches_of_no_match _ _ h7, removeAllMatches_of_no_match _ _ h8,
    removeAllMatches_of_no_match _ _ h9, removeAllMatches_of_no_match _ _ h10,
    removeAllMatches_of_no_match _ _ h11]

/-- Witness for C5 (amended): a clean input passes through unchanged. -/
theorem c5_sanitize_single_pass_witness :
    noDangerousMatch "<p>hello world</p>" = true ∧
    sanitize_html "<p>hello world</p>" = "<p>hello world</p>" :=
  ⟨by decide, (c5_sanitize_single_pass "<p>hello world</p>" (by decide)).1⟩

/-- Counterexample for C5 as stated: a single removal pass can splice
surrounding text into a `javascript:` URL scheme, so the output of
`sanitize_html` is not free of the dangerous constructs — on the input
`javascrijavascript:pt:` the removal of the inner `javascript:` leaves
exactly `javascript:` in the output. -/
theorem c5_sanitize_counterexample :
    sanitize_html "javascrijavascript:pt:" = "javascript:" ∧
    hasMatch jsSchemeMatch (sanitize_html "javascrijavascript:pt:").data = true := by
  refine ⟨by decide, by decide⟩

/-! ### Lemmas: slug generator tiers -/

theorem string_ne_empty_of_three_le_length (s : String) (h : 3 ≤ s.length) : s ≠ "" := by
  intro he
  subst he
  simp [String.length] at h

theorem one_le_length_of_string_ne_empty (s : String) (h : s ≠ "") : 1 ≤ s.length := by
  match s with
  | ⟨[]⟩ => exact absurd rfl h
  | ⟨c :: cs⟩ => simp [String.length]

/-- C6: for every title and every character-table environment,
`generate_slug` terminates and returns a non-empty string; an empty or
whitespace-only title yields `untitled`; otherwise the ASCII tier wins
exactly when its result has length at least 3; otherwise the
Unicode-preserving tier wins exactly when its result is non-empty;
otherwise the hash fallback `post-<abs(hash(title)) mod 10000>` is
returned. -/
theorem c6_generate_slug_tiers (T : CharTables) (title : String) :
    (pyStrip T.isSpace title = "" → generate_slug T title = "untitled") ∧
    (pyStrip T.isSpace title ≠ "" →
      (3 ≤ (asciiTier T (pyStrip T.isSpace title)).length →
        generate_slug T title = asciiTier T (pyStrip T.isSpace title)) ∧
      ((asciiTier T (pyStrip T.isSpace title)).length < 3 →
        unicodeTier T (pyStrip T.isSpace title) ≠ "" →
        generate_slug T title = unicodeTier T (pyStrip T.isSpace title)) ∧
      ((asciiTier T (pyStrip T.isSpace title)).length < 3 →
        unicodeTier T (pyStrip T.isSpace title) = "" →
        generate_slug T title =
          "post-" ++ decimalRepr ((T.pyHash (pyStrip T.isSpace title)).natAbs % 10000))) ∧
    generate_slug T title ≠ "" := by
  have geq : generate_slug T title =
      if pyStrip T.isSpace title = "" then "untitled"
      else if asciiTier T (pyStrip T.isSpace title) ≠ "" ∧
          3 ≤ (asciiTier T (pyStrip T.isSpace title)).length
        then asciiTier T (pyStrip T.isSpace title)
      else if unicodeTier T (pyStrip T.isSpace title) ≠ "" ∧
          1 ≤ (unicodeTier T (pyStrip T.isSpace title)).length
        then unicodeTier T (pyStrip T.isSpace title)
      else "post-" ++ decimalRepr ((T.pyHash (pyStrip T.isSpace title)).natAbs % 10000) := rfl
  refine ⟨?_, ?_, ?_⟩
  · intro h
    rw [geq, if_pos h]
  · intro hne
    refine ⟨?_, ?_, ?_⟩
    · intro h3
      rw [geq, if_neg hne,
        if_pos ⟨string_ne_empty_of_three_le_length _ h3, h3⟩]
    · intro h3 hu
      rw [geq, if_neg hne, if_neg (by intro hc; omega),
        if_pos ⟨hu, one_le_length_of_string_ne_empty _ hu⟩]
    · intro h3 hu
      rw [geq, if_neg hne, if_neg (by intro hc; omega),
        if_neg (by intro hc; exact hc.1 hu)]
  · rw [geq]
    split_ifs with e1 e2 e3
    · decide
    · exact e2.1
    · exact e3.1
    · intro hc
      have hfive : ("post-" ++
          decimalRepr ((T.pyHash (pyStrip T.isSpace title)).natAbs % 10000)).data =
          'p' :: 'o' :: 's' :: 't' :: '-' ::
            (decimalRepr ((T.pyHash (pyStrip T.isSpace title)).natAbs % 10000)).data := rfl
      rw [hc] at hfive
      simp at hfive

/-- Witness for C6: on the title `Hello World` with the ASCII tables,
the ASCII tier wins and evaluates to `hello-world`. -/
theorem c6_generate_slug_tiers_witness :
    pyStrip (asciiTables (fun _ => 0)).isSpace "Hello World" ≠ "" ∧
    3 ≤ (asciiTier (asciiTables (fun _ => 0))
          (pyStrip (asciiTables (fun _ => 0)).isSpace "Hello World")).length ∧
    generate_slug (asciiTables (fun _ => 0)) "Hello World" =
      asciiTier (asciiTables (fun _ => 0))
        (pyStrip (asciiTables (fun _ => 0)).isSpace "Hello World") ∧
    asciiTier (asciiTables (fun _ => 0))
        (pyStrip (asciiTables (fun _ => 0)).isSpace "Hello World") = "hello-world" :=
  ⟨by decide, by decide,
    ((c6_generate_slug_tiers (asciiTables (fun _ => 0)) "Hello World").2.1
      (by decide)).1 (by decide),
    by decide⟩

/-! ### Lemmas: front-matter splitting -/

theorem splitFirstList_eq (sep : List Char) (hsep : sep ≠ []) :
    ∀ l a b, splitFirstList sep l = some (a, b) →
      l = a ++ sep ++ b ∧ subListOccurs sep a = false := by
  intro l
  induction l with
  | nil => intro a b h; simp [splitFirstList] at h
  | cons c cs ih =>
      intro a b h
      by_cases hp : sep.isPrefixOf (c :: cs)
      · simp only [splitFirstList] at h
        rw [if_pos hp] at h
        obtain ⟨rfl, rfl⟩ : [] = a ∧ (c :: cs).drop sep.length = b := by
          have h1 := h
          injection h1 with h2
          exact ⟨congrArg Prod.fst h2, congrArg Prod.snd h2⟩
        obtain ⟨t, ht⟩ := List.isPrefixOf_iff_prefix.mp hp
        constructor
        · rw [← ht, List.nil_append, List.drop_left]
        · match sep with
          | s0 :: srest => rfl
      · simp only [splitFirstList] at h
        rw [if_neg hp] at h
        cases hsplit : splitFirstList sep cs with
        | none => rw [hsplit] at h; simp at h
        | some ab =>
            obtain ⟨a', b'⟩ := ab
            rw [hsplit] at h
            simp only [Option.some_inj] at h
            obtain ⟨rfl, rfl⟩ : c :: a' = a ∧ b' = b := by
              exact ⟨congrArg Prod.fst h, congrArg Prod.snd h⟩
            obtain ⟨hcs, hocc⟩ := ih a' b' hsplit
            refine ⟨by rw [hcs]; simp, ?_⟩
            simp only [subListOccurs, Bool.or_eq_false_iff]
            refine ⟨?_, hocc⟩
            by_contra hpre
            have hpre' : sep.isPrefixOf (c :: a') = true := by
              cases hb : sep.isPrefixOf (c :: a')
              · exact absurd hb hpre
              · rfl
            apply hp
            rw [List.isPrefixOf_iff_prefix] at hpre' ⊢
            calc sep <+: c :: a' := hpre'
              _ <+: (c :: a') ++ (sep ++ b') := List.prefix_append _ _
              _ = c :: cs := by rw [hcs]; simp

theorem pySplit2_three (sep s a b c : String) (hsep : sep.data ≠ [])
    (h : pySplit2 sep s = [a, b, c]) :
    s.data = a.data ++ sep.data ++ b.data ++ sep.data ++ c.data ∧
    subListOccurs sep.data a.data = false ∧
    subListOccurs sep.data b.data = false := by
  unfold pySplit2 at h
  cases h1 : splitFirstList sep.data s.data with
  | none => rw [h1] at h; simp at h
  | some ar =>
      obtain ⟨a', rest⟩ := ar
      rw [h1] at h
      dsimp only at h
      cases h2 : splitFirstList sep.data rest with
      | none => rw [h2] at h; simp at h
      | some br =>
          obtain ⟨b', rest2⟩ := br
          rw [h2] at h
          simp only [List.cons.injEq, and_true] at h
          obtain ⟨ha, hb, hc⟩ := h
          obtain ⟨hs1, hocc1⟩ := splitFirstList_eq sep.data hsep s.data a' rest h1
          obtain ⟨hs2, hocc2⟩ := splitFirstList_eq sep.data hsep rest b' rest2 h2
          subst ha hb hc
          refine ⟨?_, hocc1, hocc2⟩
          rw [hs1, hs2]
          simp [List.append_assoc]

/-- C7 (amended): `extract_front_matter` fails exactly when the text
does not begin with the `---` delimiter, when fewer than two delimiter
occurrences exist (the split yields fewer than three parts), or when
the front-matter block is not valid YAML; on success the split
consumes only the first two delimiter occurrences (the first and
middle parts contain no `---`, so a body containing `---` is not
truncated) and the returned body is the full remainder after the
second delimiter stripped of leading/trailing whitespace. -/
theorem c7_extract_front_matter_split {α : Type}
    (p : String → Option (Option α)) (content : String) :
    (pyStartsWith "---" content = false →
      extract_front_matter p content = .error .missingStart) ∧
    (pyStartsWith "---" content = true →
      (∀ parts, pySplit2 "---" content = parts → parts.length < 3 →
        extract_front_matter p content = .error .missingClose) ∧
      (∀ a b c, pySplit2 "---" content = [a, b, c] →
        (p (pyStrip asciiIsSpace b) = none →
          extract_front_matter p content = .error .invalidYaml) ∧
        (∀ fm, p (pyStrip asciiIsSpace b) = some fm →
          extract_front_matter p content = .ok (fm, pyStrip asciiIsSpace c)) ∧
        content.data = a.data ++ "---".data ++ b.data ++ "---".data ++ c.data ∧
        subListOccurs "---".data a.data = false ∧
        subListOccurs "---".data b.data = false)) := by
  constructor
  · intro hfalse
    simp only [extract_front_matter]
    rw [if_neg (by rw [hfalse]; exact Bool.false_ne_true)]
  · intro htrue
    constructor
    · intro parts hparts hlen
      simp only [extract_front_matter]
      rw [if_pos htrue, hparts]
      match parts, hlen with
      | [], _ => rfl
      | [x], _ => rfl
      | [x, y], _ => rfl
      | x :: y :: z :: rest, hlen => exact absurd hlen (by simp)
    · intro a b c habc
      refine ⟨?_, ?_, ?_⟩
      · intro hp
        simp only [extract_front_matter]
        rw [if_pos htrue, habc]
        dsimp only
        rw [hp]
      · intro fm hp
        simp only [extract_front_matter]
        rw [if_pos htrue, habc]
        dsimp only
        rw [hp]
      · have := pySplit2_three "---" content a b c (by decide) habc
        exact ⟨this.1, this.2.1, this.2.2⟩

/-- Witness for C7: the amended theorem applied to a concrete file with
an empty YAML block and a plain body. -/
theorem c7_extract_front_matter_split_witness :
    pyStartsWith "---" "---\ntitle: x\n---\nbody text\n" = true ∧
    pySplit2 "---" "---\ntitle: x\n---\nbody text\n" =
      ["", "\ntitle: x\n", "\nbody text\n"] ∧
    extract_front_matter (fun _ => some (some ())) "---\ntitle: x\n---\nbody text\n" =
      .ok (some (), "body text") :=
  ⟨by decide, by decide,
    (((c7_extract_front_matter_split (fun _ => some (some ()))
        "---\ntitle: x\n---\nbody text\n").2 (by decide)).2
      "" "\ntitle: x\n" "\nbody text\n" (by decide)).2.1 (some ()) rfl⟩

/-- Counterexample for C7 as stated: the returned body is not the full
remainder of the text after the second delimiter — the source strips
surrounding whitespace from it (`markdown_body.strip()`), so on
`---\n---\nbody --- tail\n` the remainder `\nbody --- tail\n` comes
back as `body --- tail` (the later `---` is, as claimed, not a
truncation point). -/
theorem c7_extract_front_matter_counterexample :
    extract_front_matter (fun _ => some (none : Option Unit))
        "---\n---\nbody --- tail\n" = .ok (none, "body --- tail") ∧
    ("body --- tail" : String) ≠ "\nbody --- tail\n" :=
  ⟨rfl, by decide⟩

/-- C8 (amended): the configuration loader raises a not-found error
exactly when the config file is absent; it raises a value error when
the parsed structure is empty/null, when a required field is missing,
when (no field missing but) a required field is null, blank after
trimming or non-string, when `posts_per_page` is present and fails
Python's `isinstance(int)`-and-positive check (booleans count as
integers, so `true` is accepted as 1), when `base_url` is not an
absolute http/https URL with a non-empty host, or when `timezone` is
present and not a loadable IANA zone name.  Violations are collected
per phase: all missing required fields are reported together in one
error, and otherwise all null/blank/non-string required fields are
reported together in one error — but a missing field masks invalid
values of the other required fields. -/
theorem c8_from_yaml_validation (tzdb : String → Bool) :
    SiteConfig.from_yaml tzdb none = .error .notFound ∧
    (∀ v, SiteConfig.from_yaml tzdb (some v) ≠ .error .notFound) ∧
    SiteConfig.from_yaml tzdb (some .null) = .error .emptyConfig ∧
    (∀ m, missingOf m ≠ [] →
      SiteConfig.from_yaml tzdb (some (.map m)) =
        .error (.missingRequired (missingOf m))) ∧
    (∀ m, missingOf m = [] → invalidOf m ≠ [] →
      SiteConfig.from_yaml tzdb (some (.map m)) =
        .error (.invalidRequired (invalidOf m))) ∧
    (∀ m, missingOf m = [] → invalidOf m = [] →
      posPageSize (getYvD m "posts_per_page" (.int 10)) = none →
      SiteConfig.from_yaml tzdb (some (.map m)) = .error .badPostsPerPage) ∧
    (∀ m pp, missingOf m = [] → invalidOf m = [] →
      posPageSize (getYvD m "posts_per_page" (.int 10)) = some pp →
      urlOk (strOf (getYvD m "base_url" .null)) = false →
      SiteConfig.from_yaml tzdb (some (.map m)) = .error .badBaseUrl) ∧
    (∀ m pp z, missingOf m = [] → invalidOf m = [] →
      posPageSize (getYvD m "posts_per_page" (.int 10)) = some pp →
      urlOk (strOf (getYvD m "base_url" .null)) = true →
      getYvD m "timezone" (.str "UTC") = .str z → tzdb z = false →
      SiteConfig.from_yaml tzdb (some (.map m)) = .error .badTimezone) ∧
    (∀ m pp z, missingOf m = [] → invalidOf m = [] →
      posPageSize (getYvD m "posts_per_page" (.int 10)) = some pp →
      urlOk (strOf (getYvD m "base_url" .null)) = true →
      getYvD m "timezone" (.str "UTC") = .str z → tzdb z = true →
      (SiteConfig.from_yaml tzdb (some (.map m))).isOk = true) := by
  refine ⟨rfl, ?_, rfl, ?_, ?_, ?_, ?_, ?_, ?_⟩
  · intro v h
    cases v <;> simp only [SiteConfig.from_yaml] at h <;> (repeat' split at h) <;> simp_all
  · intro m hmiss
    simp only [SiteConfig.from_yaml]
    rw [if_pos hmiss]
  · intro m hmiss hinv
    simp only [SiteConfig.from_yaml]
    rw [if_neg (by simp [hmiss]), if_pos hinv]
  · intro m hmiss hinv hppp
    simp only [SiteConfig.from_yaml]
    rw [if_neg (by simp [hmiss]), if_neg (by simp [hinv]), hppp]
  · intro m pp hmiss hinv hppp hurl
    simp only [SiteConfig.from_yaml]
    rw [if_neg (by simp [hmiss]), if_neg (by simp [hinv]), hppp]
    dsimp only
    rw [hurl]
    rfl
  · intro m pp z hmiss hinv hppp hurl htz hbad
    simp only [SiteConfig.from_yaml]
    rw [if_neg (by simp [hmiss]), if_neg (by simp [hinv]), hppp]
    dsimp only
    rw [hurl, if_neg (by decide), htz]
    dsimp only
    rw [hbad]
    rfl
  · intro m pp z hmiss hinv hppp hurl htz hok
    simp only [SiteConfig.from_yaml]
    rw [if_neg (by simp [hmiss]), if_neg (by simp [hinv]), hppp]
    dsimp only
    rw [hurl, if_neg (by decide), htz]
    dsimp only
    rw [hok]
    rfl

/-- Counterexample for C8 as stated: (a) a config with `site_name`
missing and `author: null` is rejected with a combined error that
names only the missing field — the null-author violation of a required
field is not reported with it, so not every violation of the three
required fields reaches the one combined error; (b) a config with
`posts_per_page: true` is accepted (Python's `isinstance(True, int)`
holds and `True > 0`), although a YAML boolean is not a positive
integer, so no value error is raised. -/
theorem c8_from_yaml_counterexample :
    SiteConfig.from_yaml (fun z => z == "UTC")
        (some (.map [("author", .null), ("base_url", .str "https://e.com")])) =
      .error (.missingRequired ["site_name"]) ∧
    (SiteConfig.from_yaml (fun z => z == "UTC")
        (some (.map [("site_name", .str "S"), ("base_url", .str "https://e.com"),
                     ("author", .str "A"),
                     ("posts_per_page", .bool true)]))).toOption.map
        (fun c => c.posts_per_page) = some 1 :=
  ⟨rfl, rfl⟩

/-- Witness for C8 (amended): a config with all three required fields
present but invalid (null, non-string, blank) reports all three
together in one combined error. -/
theorem c8_from_yaml_validation_witness :
    missingOf [("site_name", Yv.null), ("base_url", Yv.int 3), ("author", Yv.str " ")]
      = [] ∧
    invalidOf [("site_name", Yv.null), ("base_url", Yv.int 3), ("author", Yv.str " ")]
      = ["site_name", "base_url", "author"] ∧
    SiteConfig.from_yaml (fun _ => true)
        (some (.map [("site_name", Yv.null), ("base_url", Yv.int 3),
                     ("author", Yv.str " ")])) =
      .error (.invalidRequired ["site_name", "base_url", "author"]) :=
  ⟨rfl, rfl, by
    have h := (c8_from_yaml_validation (fun _ => true)).2.2.2.2.1
      [("site_name", Yv.null), ("base_url", Yv.int 3), ("author", Yv.str " ")]
      rfl (by decide)
    exact h⟩

/-- C9: for every non-empty post list and page size `k > 0`,
`paginate_posts` returns exactly `ceil(n / k)` page records (the
bounds `k * (pages - 1) < n ≤ k * pages` pin the integer formula
`(n + k - 1) / k` down as the ceiling); the 1-based page `i + 1`
holds the slice of posts from index `i * k` up to `(i + 1) * k`,
`page_number` is `i + 1`, `total_pages` is the page count,
`has_previous` holds exactly for later pages, `has_next` exactly
before the last page, and `next_url` is `/page/<i+2>/` when a next
page exists and `none` otherwise. -/
theorem c9_paginate_posts_pages {α : Type} (posts : List α) (k : Int)
    (hne : posts ≠ []) (hk : 0 < k) :
    ∃ L, paginate_posts posts k = .ok L ∧
      L.length = (posts.length + k.toNat - 1) / k.toNat ∧
      k.toNat * (L.length - 1) < posts.length ∧
      posts.length ≤ k.toNat * L.length ∧
      ∀ i (h : i < L.length),
        (L.get ⟨i, h⟩).posts = (posts.drop (i * k.toNat)).take k.toNat ∧
        (L.get ⟨i, h⟩).page_number = i + 1 ∧
        (L.get ⟨i, h⟩).total_pages = L.length ∧
        ((L.get ⟨i, h⟩).has_previous = true ↔ 0 < i) ∧
        ((L.get ⟨i, h⟩).has_next = true ↔ i + 1 < L.length) ∧
        (L.get ⟨i, h⟩).next_url =
          (if i + 1 < L.length then some ("/page/" ++ decimalRepr (i + 2) ++ "/")
           else none) := by
  match posts with
  | x :: xs =>
  have hk0 : ¬ k ≤ 0 := not_le.mpr hk
  have hknat : 0 < k.toNat := by omega
  have hpag : paginate_posts (x :: xs) k =
      .ok ((List.range (((x :: xs).length + k.toNat - 1) / k.toNat)).map fun idx =>
        { posts := ((x :: xs).drop (idx * k.toNat)).take k.toNat
          page_number := idx + 1
          total_pages := ((x :: xs).length + k.toNat - 1) / k.toNat
          has_previous := decide (1 < idx + 1)
          has_next := decide (idx + 1 < ((x :: xs).length + k.toNat - 1) / k.toNat)
          previous_url :=
            if 1 < idx + 1 then
              some (if idx + 1 = 2 then "/"
                else "/page/" ++ decimalRepr (idx + 1 - 1) ++ "/")
            else none
          next_url :=
            if idx + 1 < ((x :: xs).length + k.toNat - 1) / k.toNat then
              some ("/page/" ++ decimalRepr (idx + 1 + 1) ++ "/")
            else none }) := by
    simp only [paginate_posts]
    rw [if_neg hk0]
  refine ⟨_, hpag, ?_, ?_, ?_, ?_⟩
  · simp
  · simp only [List.length_map, List.length_range]
    have hdm := Nat.div_add_mod ((x :: xs).length + k.toNat - 1) k.toNat
    have hmod := Nat.mod_lt ((x :: xs).length + k.toNat - 1) hknat
    cases hq : ((x :: xs).length + k.toNat - 1) / k.toNat with
    | zero => simp
    | succ l =>
        rw [hq, Nat.mul_succ] at hdm
        have hlen : 0 < (x :: xs).length := by simp
        simp only [Nat.succ_sub_one]
        generalize hM : k.toNat * l = M at *
        omega
  · simp only [List.length_map, List.length_range]
    have hdm := Nat.div_add_mod ((x :: xs).length + k.toNat - 1) k.toNat
    have hmod := Nat.mod_lt ((x :: xs).length + k.toNat - 1) hknat
    have hlen : 0 < (x :: xs).length := by simp
    generalize hM : k.toNat * (((x :: xs).length + k.toNat - 1) / k.toNat) = M at *
    omega
  · intro i h
    have hi : i < ((x :: xs).length + k.toNat - 1) / k.toNat := by simpa using h
    simp only [List.get_eq_getElem, List.getElem_map, List.getElem_range,
      List.length_map, List.length_range]
    refine ⟨trivial, trivial, trivial, ?_, ?_, trivial⟩
    · simp only [decide_eq_true_eq]
      omega
    · simp only [decide_eq_true_eq]

/-- Witness for C9: 7 posts with page size 3 yield exactly 3 pages;
page 1 holds 3 posts with `next_url` `/page/2/`, page 3 holds 1 post
with `has_next` false. -/
theorem c9_paginate_posts_pages_witness :
    (List.range 7 ≠ []) ∧ ((0 : Int) < 3) ∧
    (∃ L, paginate_posts (List.range 7) (3 : Int) = .ok L ∧ L.length = 3) ∧
    (paginate_posts (List.range 7) (3 : Int)).toOption.map
        (fun L => L.map (fun p => (p.posts.length, p.page_number, p.total_pages,
          p.has_previous, p.has_next, p.next_url))) =
      some [(3, 1, 3, false, true, some "/page/2/"),
            (3, 2, 3, true, true, some "/page/3/"),
            (1, 3, 3, true, false, none)] :=
  ⟨by decide, by decide,
    by
      obtain ⟨L, hok, hlen, -⟩ :=
        c9_paginate_posts_pages (List.range 7) 3 (by decide) (by decide)
      exact ⟨L, hok, by rw [hlen]; rfl⟩,
    by rfl⟩

/-- C10: for the empty post list and every page size `k > 0`,
`paginate_posts` returns exactly one page record with an empty post
slice, `page_number` 1, `total_pages` 1, `has_previous` and `has_next`
false and both URLs `none` — it neither raises nor returns an empty
page list. -/
theorem c10_paginate_posts_empty {α : Type} (k : Int) (hk : 0 < k) :
    paginate_posts ([] : List α) k =
      .ok [{ posts := [], page_number := 1, total_pages := 1, has_previous := false,
             has_next := false, previous_url := none, next_url := none }] := by
  simp only [paginate_posts]
  rw [if_neg (not_le.mpr hk)]

/-- Witness for C10: the empty-list page record at page size 1. -/
theorem c10_paginate_posts_empty_witness :
    ((0 : Int) < 1) ∧
    paginate_posts ([] : List Nat) 1 =
      .ok [{ posts := [], page_number := 1, total_pages := 1, has_previous := false,
             has_next := false, previous_url := none, next_url := none }] :=
  ⟨by decide, c10_paginate_posts_empty 1 (by decide)⟩
